import Mathlib

/-!
# Verification of the composite-focus tracker (`useFocusedState.ts`)

Shallow embedding of `packages/pro/search/src/composables/useFocusedState.ts`.

The source is single-threaded, event-driven TypeScript.  The `handleBlur`
handler is `async`: it synchronously runs the prefix of
`checkSubsequentFocus` (reset `subsequentFocus`, set `shouldCheck`,
schedule a zero-delay `setTimeout`), suspends, and resumes when that timer
fires, at which point it reads `subsequentFocus`, clears both flags, and
either discards the blur or performs the real blur effect.  We model this
with an explicit state machine: the mutable closure variables become fields
of `FState`, the pending `setTimeout` continuations become a FIFO counter
(every suspended `handleBlur` resumption executes identical code), and the
event loop is a list of `Act` actions where `Act.tick` fires the oldest
pending timer together with the microtask resumption it unblocks.

Host-visible effects (`callEmit(props.onFocus, …)`, `callEmit(props.onBlur, …)`,
the optional pre-focus / pre-blur callbacks, `setInactive`) are recorded in
an output trace.
-/

namespace FocusedState

/-- Host-visible side effects, in the order the source performs them:
`preFocusCb` / `preBlurCb` are the optional `cb?.()` invocations inside
`handleFocus` / `handleBlur`, `setInactive` is the `setInactive(true)` call,
and `onFocus` / `onBlur` are `callEmit(props.onFocus, evt)` /
`callEmit(props.onBlur, evt)`. -/
inductive Out where
  | preFocusCb
  | preBlurCb
  | setInactive
  | onFocus
  | onBlur
  deriving DecidableEq, BEq, Repr

/-- One event-loop stimulus delivered to the tracker.
`focusEvt` / `blurEvt` are focus-monitor notifications routed through
`_handleFocus` / `_handleBlur` (both monitored regions — the primary
element and the overlay container — are bound to the same handler pair by
`registerHandlers`, so the region identity does not enter the handler
logic).  `tick` is one macrotask boundary: it fires the oldest pending
zero-delay timer and runs the `handleBlur` resumption it unblocks.
`progBlur` is the imperative `blur()` entry point. -/
inductive Act where
  | focusEvt
  | blurEvt
  | tick
  | progBlur
  deriving DecidableEq, BEq, Repr

/-- The mutable state of `useFocusHandlers` plus the scheduler.
`focused` is the `useState` boolean; `shouldCheck` and `subsequentFocus`
are the closure variables of the same names; `pendingTimers` counts the
zero-delay timers scheduled by suspended `handleBlur` calls (FIFO; all
resumptions run identical code, so a count suffices). -/
structure FState where
  focused : Bool
  shouldCheck : Bool
  subsequentFocus : Bool
  pendingTimers : Nat
  deriving DecidableEq, BEq, Repr

/-- `handleFocus(evt, cb)` from the source: if `shouldCheck`, set
`subsequentFocus := true`; if already `focused`, return; otherwise run the
callback, set `focused := true` and emit `onFocus`. -/
def handleFocus (s : FState) : FState × List Out :=
  let s1 := if s.shouldCheck then { s with subsequentFocus := true } else s
  if s1.focused then (s1, [])
  else ({ s1 with focused := true }, [.preFocusCb, .onFocus])

/-- `_handleFocus(evt)` from the source: the `props.disabled` guard in
front of `handleFocus`. -/
def handleFocusEvt (disabled : Bool) (s : FState) : FState × List Out :=
  if disabled then (s, []) else handleFocus s

/-- The synchronous prefix of `handleBlur` / `checkSubsequentFocus`:
`subsequentFocus = false; shouldCheck = true;` and scheduling of the
zero-delay timer (`setTimeout(resolve)`), after which the handler
suspends. -/
def handleBlurStart (s : FState) : FState :=
  { s with subsequentFocus := false, shouldCheck := true,
           pendingTimers := s.pendingTimers + 1 }

/-- Firing the oldest pending timer: the tail of `checkSubsequentFocus`
(read `subsequentFocus`, clear both flags) followed by the rest of
`handleBlur` (discard if a subsequent focus was seen, otherwise run the
pre-blur callback, `setInactive(true)`, `setFocused(false)` and emit
`onBlur`).  A `tick` with no pending timer is a no-op. -/
def handleBlurResume (s : FState) : FState × List Out :=
  match s.pendingTimers with
  | 0 => (s, [])
  | n + 1 =>
    let sf := s.subsequentFocus
    let s1 : FState :=
      { s with subsequentFocus := false, shouldCheck := false, pendingTimers := n }
    if sf then (s1, [])
    else ({ s1 with focused := false }, [.preBlurCb, .setInactive, .onBlur])

/-- The imperative `blur()` entry point: `setInactive(true); setFocused(false)`,
synchronously, touching neither the debounce flags nor the timer queue. -/
def progBlurFn (s : FState) : FState × List Out :=
  ({ s with focused := false }, [.setInactive])

/-- One event-loop step. -/
def step (disabled : Bool) (s : FState) : Act → FState × List Out
  | .focusEvt => handleFocusEvt disabled s
  | .blurEvt => (handleBlurStart s, [])
  | .tick => handleBlurResume s
  | .progBlur => progBlurFn s

/-- Run a list of actions, accumulating the output trace. -/
def run (disabled : Bool) (s : FState) : List Act → FState × List Out
  | [] => (s, [])
  | a :: rest =>
    let p := step disabled s a
    let q := run disabled p.1 rest
    (q.1, p.2 ++ q.2)

/-- The states reached after each prefix of the action list (the initial
state included). -/
def statesAlong (disabled : Bool) (s : FState) : List Act → List FState
  | [] => [s]
  | a :: rest => s :: statesAlong disabled (step disabled s a).1 rest

/-- The quiescent state: no debounce window open, no pending timer. -/
def quiescent (b : Bool) : FState :=
  { focused := b, shouldCheck := false, subsequentFocus := false, pendingTimers := 0 }

/-! ## Single-region event sequences (for the temporal claim)

A DOM-realizable history on one region alternates focus and blur,
beginning with focus from the unfocused initial state.  `altFrom b n` is
the length-`n` alternating origin sequence starting with origin `b`;
`expandEvt` turns one origin into event-loop actions, a blur being
followed by the macrotask boundary that lets its debounce window expire
before the next event arrives. -/

/-- Alternating origin sequence of length `n` starting with `b`
(`true` = focus gained, `false` = focus lost). -/
def altFrom : Bool → Nat → List Bool
  | _, 0 => []
  | b, n + 1 => b :: altFrom (!b) n

/-- Event-loop actions for one event origin: a focus is synchronous; a
blur opens its debounce window and the following `tick` expires it. -/
def expandEvt (origin : Bool) : List Act :=
  if origin then [.focusEvt] else [.blurEvt, .tick]

/-- Event-loop actions for a whole origin sequence. -/
def expandEvts (origins : List Bool) : List Act :=
  (origins.map expandEvt).flatten

/-- The full effect trace of one event processed from a quiescent state. -/
def traceOfEvt (origin : Bool) : List Out :=
  if origin then [.preFocusCb, .onFocus] else [.preBlurCb, .setInactive, .onBlur]

/-- Host notifications (`callEmit` calls) within a trace. -/
def notifs (t : List Out) : List Out :=
  t.filter fun o => o == .onFocus || o == .onBlur

/-- Number of `true → false` transitions in a list of booleans. -/
def downTransitions : List Bool → Nat
  | true :: false :: rest => downTransitions (false :: rest) + 1
  | _ :: rest => downTransitions rest
  | [] => 0

end FocusedState

namespace Registrar

/-!
Embedding of `registerHandlers` / `bindMonitor` from `useFocusedState.ts`:
the monitored-element set and the lazy overlay-container discovery.  On
every primary-element focus the source schedules a `nextTick` probe; the
probe returns immediately when `overlayContainerMonitored` is already set,
otherwise it queries the container locator (`getOverlayContainer()`): a
`null` result leaves everything unchanged, a found container is bound with
the same handlers and the latch is set.  Regions are opaque `Nat`
identifiers; region `0` is the primary element bound in `onMounted`. -/

/-- `overlayContainerMonitored` latch and the `monitoredElements` set
(as an insertion-ordered list). -/
structure RegState where
  overlayContainerMonitored : Bool
  monitoredElements : List Nat
  deriving DecidableEq, BEq, Repr

/-- The `nextTick` probe body run after a primary-element focus:
early-return when latched; otherwise resolve the container (an `Option`
region, `none` when the locator finds nothing) and, if found, bind it and
set the latch. -/
def probeOverlayContainer (s : RegState) (container : Option Nat) : RegState :=
  if s.overlayContainerMonitored then s
  else
    match container with
    | none => s
    | some c =>
      { overlayContainerMonitored := true,
        monitoredElements := s.monitoredElements ++ [c] }

/-- A whole tracker lifetime of primary-focus cycles: the `i`-th list
entry is what the container locator resolves to at the `i`-th probe. -/
def runFocusProbes (s : RegState) (resolutions : List (Option Nat)) : RegState :=
  resolutions.foldl probeOverlayContainer s

/-- First successful resolution in a probe sequence. -/
def firstSome : List (Option Nat) → Option Nat
  | [] => none
  | none :: rest => firstSome rest
  | some c :: _ => some c

/-- The registrar state right after `onMounted` binds the primary element. -/
def initialState : RegState :=
  { overlayContainerMonitored := false, monitoredElements := [0] }

end Registrar

namespace ContainerEl

/-!
Embedding of `getContainerEl` from `useFocusedState.ts`:

```
const container = isFunction(containerProp) ? containerProp() : containerProp
return isString(container)
  ? document.querySelector(/^[.#]/.test(container) ? container : `.${container}`)
  : container
```

`document.querySelector` is an external collaborator modelled as an oracle
`dom : String → Option Nat` (`none` = no match); DOM elements are opaque
`Nat` handles and `null` is `none`. -/

/-- A container value after any function has been applied: a selector
string or a direct element handle (possibly `null`). -/
inductive ContainerValue where
  | str (s : String)
  | el (e : Option Nat)
  deriving DecidableEq, Repr

/-- The `container` configuration value: a direct value or a zero-argument
function producing one (the source's `isFunction` test). -/
inductive ContainerProp where
  | val (v : ContainerValue)
  | fn (f : Unit → ContainerValue)

/-- The `/^[.#]/` test: the string starts with a class or id sigil. -/
def startsWithSigil (s : String) : Bool :=
  match s.data with
  | [] => false
  | c :: _ => c == '.' || c == '#'

/-- `getContainerEl`, with `document.querySelector` abstracted as `dom`. -/
def getContainerEl (dom : String → Option Nat) (containerProp : ContainerProp) :
    Option Nat :=
  let container := match containerProp with
    | .fn f => f ()
    | .val v => v
  match container with
  | .str s => dom (if startsWithSigil s then s else "." ++ s)
  | .el e => e

end ContainerEl

namespace TempSegment

/-!
Embedding of `manageTempSegmentActive` / `setTempSegmentActive` from
`useFocusedState.ts`:

```
let name = prevActiveSegmentName
if (!name) {
  name = tempSearchState.segmentValues[0]?.name ?? 'name'
  for (let idx = tempSearchState.segmentValues.length - 1; idx > -1; idx--) {
    if (tempSearchState.segmentValues[idx].value) {
      name = tempSearchState.segmentValues[idx].name
      break
    }
  }
}
setTempActive(name)
```

`prevActiveSegmentName : Option String` models `string | undefined`; the
JavaScript guard `!name` is true both for `undefined` and for the empty
string.  A segment's `value` truthiness is the `hasValue` flag. -/

/-- One entry of `tempSearchState.segmentValues`: its `name` and the
truthiness of its `value`. -/
structure SegmentValue where
  name : String
  hasValue : Bool
  deriving DecidableEq, Repr

/-- The name passed to `setTempActive` by `setTempSegmentActive`.  The
descending `for` loop that stops at the first truthy `value` is
`segmentValues.reverse.find?`. -/
def setTempSegmentActiveName (prevActiveSegmentName : Option String)
    (segmentValues : List SegmentValue) : String :=
  let name := prevActiveSegmentName.getD ""
  if name = "" then
    match segmentValues.reverse.find? (fun sv => sv.hasValue) with
    | some sv => sv.name
    | none => (segmentValues.head?.map SegmentValue.name).getD "name"
  else name

/-- The refocus-restore fallback exactly as the spec words it: the name of
the last segment (scanning from the end) whose value is non-empty; if no
segment has a value, the first segment's name; the fixed name `"name"`
when the segment list is empty. -/
def fallbackNameSpec (segmentValues : List SegmentValue) : String :=
  match segmentValues.reverse.find? (fun sv => sv.hasValue) with
  | some sv => sv.name
  | none =>
    match segmentValues with
    | [] => "name"
    | sv :: _ => sv.name

end TempSegment

/-! ## Helper lemmas -/

namespace FocusedState

lemma run_append (d : Bool) (l1 l2 : List Act) : ∀ s : FState,
    run d s (l1 ++ l2) =
      ((run d (run d s l1).1 l2).1,
       (run d s l1).2 ++ (run d (run d s l1).1 l2).2) := by
  induction l1 with
  | nil => intro s; simp [run]
  | cons a l1 ih => intro s; simp [run, ih, List.append_assoc]

lemma run_evt_quiescent (b : Bool) :
    run false (quiescent b) (expandEvt (!b)) = (quiescent (!b), traceOfEvt (!b)) := by
  cases b <;> rfl

lemma run_alt_quiescent : ∀ (n : Nat) (b : Bool),
    run false (quiescent b) (expandEvts (altFrom (!b) n)) =
      (quiescent ((altFrom (!b) n).getLastD b),
       ((altFrom (!b) n).map traceOfEvt).flatten)
  | 0, b => by simp [altFrom, expandEvts, run]
  | n + 1, b => by
    have ih := run_alt_quiescent n (!b)
    rw [Bool.not_not] at ih
    have halt : altFrom (!b) (n + 1) = (!b) :: altFrom b n := by
      simp [altFrom]
    have h1 : expandEvts (altFrom (!b) (n + 1)) =
        expandEvt (!b) ++ expandEvts (altFrom b n) := by
      rw [halt]; rfl
    rw [h1, run_append, run_evt_quiescent, ih, halt, List.getLastD_cons]
    rfl

lemma notifs_flatten_trace : ∀ origins : List Bool,
    notifs ((origins.map traceOfEvt).flatten) =
      origins.map (fun o => if o then Out.onFocus else Out.onBlur)
  | [] => rfl
  | o :: rest => by
    have ih := notifs_flatten_trace rest
    have hsplit : notifs ((List.map traceOfEvt (o :: rest)).flatten) =
        notifs (traceOfEvt o) ++ notifs ((rest.map traceOfEvt).flatten) := by
      show notifs (traceOfEvt o ++ (rest.map traceOfEvt).flatten) = _
      simp [notifs, List.filter_append]
    rw [hsplit, ih]
    cases o <;> rfl

end FocusedState

namespace Registrar

lemma runFocusProbes_latched (cs : List (Option Nat)) : ∀ l : List Nat,
    runFocusProbes ⟨true, l⟩ cs = ⟨true, l⟩ := by
  induction cs with
  | nil => intro l; rfl
  | cons c cs ih =>
    intro l
    have h : probeOverlayContainer ⟨true, l⟩ c = ⟨true, l⟩ := rfl
    show runFocusProbes (probeOverlayContainer ⟨true, l⟩ c) cs = ⟨true, l⟩
    rw [h]; exact ih l

lemma runFocusProbes_unlatched (cs : List (Option Nat)) : ∀ l : List Nat,
    runFocusProbes ⟨false, l⟩ cs =
      ⟨(firstSome cs).isSome, l ++ (firstSome cs).toList⟩ := by
  induction cs with
  | nil => intro l; simp [runFocusProbes, firstSome]
  | cons c cs ih =>
    intro l
    cases c with
    | none =>
      show runFocusProbes (probeOverlayContainer ⟨false, l⟩ none) cs = _
      have h : probeOverlayContainer ⟨false, l⟩ none = ⟨false, l⟩ := rfl
      rw [h]
      simpa [firstSome] using ih l
    | some a =>
      show runFocusProbes (probeOverlayContainer ⟨false, l⟩ (some a)) cs = _
      have h : probeOverlayContainer ⟨false, l⟩ (some a) = ⟨true, l ++ [a]⟩ := rfl
      rw [h]
      simpa [firstSome] using runFocusProbes_latched cs (l ++ [a])

end Registrar

/-! ## Claim theorems -/

namespace FocusedState

/-- C1: with FocusedState true and both regions monitored, a blur event
immediately followed — within the same macrotask turn — by a focus event
on the other monitored region produces zero host notifications (no
`onFocus`, no `onBlur`, no callbacks at all), and FocusedState remains
true at every intermediate point, the expiry of the debounce window
included.  Both regions are bound to the same handler pair by
`registerHandlers`, so the pair (A, B) does not parameterize the
handlers. -/
theorem blurThenFocus_sameTurn_noNotifications :
    run false (quiescent true) [.blurEvt, .focusEvt, .tick] = (quiescent true, []) ∧
    (statesAlong false (quiescent true) [.blurEvt, .focusEvt, .tick]).map
      FState.focused = [true, true, true, true] := by
  decide

/-- C2: a blur received while FocusedState is true, with no focus event
arriving before the zero-delay timer fires, produces exactly the real
blur effect: the pre-blur callback, `setInactive(true)`, and exactly one
`onBlur` host notification, with FocusedState false afterwards (stated
for any prior value of the `subsequentFocus` flag, which the blur
resets). -/
theorem blur_noSubsequentFocus_emitsBlurOnce (sf : Bool) :
    run false ⟨true, false, sf, 0⟩ [.blurEvt, .tick] =
      (⟨false, false, false, 0⟩, [.preBlurCb, .setInactive, .onBlur]) ∧
    (run false ⟨true, false, sf, 0⟩ [.blurEvt, .tick]).2.count Out.onBlur = 1 := by
  cases sf <;> decide

/-- C3 counterexample: from the focused quiescent state, blur–focus–blur
within one turn leaves `subsequentFocus = false` (the second blur reset
the flag the focus had set) and `pendingTimers = 2` (a second independent
timer-and-decision was scheduled) — so a second blur does not collapse
onto the already-open window. -/
theorem secondBlur_secondWindow_cex :
    (run false (quiescent true) [.blurEvt, .focusEvt, .blurEvt]).1 =
      { focused := true, shouldCheck := true, subsequentFocus := false,
        pendingTimers := 2 } := by
  decide

/-- C3 (amended): a blur event arriving while a debounce window is
already open (a timer pending) opens another window: it resets
`subsequentFocus` to false, sets `shouldCheck`, and schedules an
additional independent timer, leaving the rest of the state unchanged. -/
theorem blur_midWindow_addsTimer (s : FState) (_h : 0 < s.pendingTimers) :
    step false s .blurEvt =
      ({ s with subsequentFocus := false, shouldCheck := true,
                pendingTimers := s.pendingTimers + 1 }, []) := rfl

/-- Witness for `blur_midWindow_addsTimer` at a concrete mid-window state. -/
theorem blur_midWindow_addsTimer_witness :
    step false ⟨true, true, true, 1⟩ .blurEvt = (⟨true, true, false, 2⟩, []) :=
  blur_midWindow_addsTimer ⟨true, true, true, 1⟩ (by decide)

/-- C4 counterexample: the alternating single-region sequence
focus–blur–focus–blur delivered within one turn (both windows expiring
afterwards) emits the `onBlur` host callback twice although FocusedState
transitions true → false only once — a host callback fires without a
transition of FocusedState. -/
theorem singleRegion_callback_without_transition_cex :
    (run false (quiescent false)
        [.focusEvt, .blurEvt, .focusEvt, .blurEvt, .tick, .tick]).2.count
      Out.onBlur = 2 ∧
    downTransitions
      ((statesAlong false (quiescent false)
          [.focusEvt, .blurEvt, .focusEvt, .blurEvt, .tick, .tick]).map
        FState.focused) = 1 := by
  decide

/-- C4 (amended): for every alternating focus/blur sequence on a single
monitored region that starts with focus from the unfocused quiescent
state and in which each blur's debounce window expires before the next
event arrives, FocusedState ends equal to the origin of the most recent
event (false when there was none) in a quiescent state, and the host
notifications are exactly one per event — `onFocus` for each focus,
`onBlur` for each blur — so a callback fires for every transition and
never otherwise on such sequences. -/
theorem singleRegion_mirrors_lastEvent (n : Nat) :
    run false (quiescent false) (expandEvts (altFrom true n)) =
      (quiescent ((altFrom true n).getLastD false),
       ((altFrom true n).map traceOfEvt).flatten) ∧
    notifs (run false (quiescent false) (expandEvts (altFrom true n))).2 =
      (altFrom true n).map (fun o => if o then Out.onFocus else Out.onBlur) := by
  have h := run_alt_quiescent n false
  rw [Bool.not_false] at h
  exact ⟨h, by rw [h]; exact notifs_flatten_trace (altFrom true n)⟩

/-- C5: a focus event received while FocusedState is already true and no
debounce window check is pending (`shouldCheck = false`) is a complete
no-op: the state is unchanged (in particular `subsequentFocus` is not
marked) and neither the pre-focus callback nor any host notification
runs. -/
theorem focus_whileFocused_idempotent (s : FState) (h1 : s.focused = true)
    (h2 : s.shouldCheck = false) :
    step false s .focusEvt = (s, []) := by
  cases s
  simp_all [step, handleFocusEvt, handleFocus]

/-- Witness for `focus_whileFocused_idempotent` at the focused quiescent
state. -/
theorem focus_whileFocused_idempotent_witness :
    step false ⟨true, false, false, 0⟩ .focusEvt = (⟨true, false, false, 0⟩, []) :=
  focus_whileFocused_idempotent ⟨true, false, false, 0⟩ rfl rfl

/-- C6: the programmatic `blur()` entry point is immediate and
synchronous for every state and either value of `props.disabled`: in the
same step it performs `setInactive(true)` and sets FocusedState to false,
and it leaves `shouldCheck`, `subsequentFocus` and the timer queue
untouched — no debounce window is opened, waited for, or consulted,
regardless of any open window or pending focus. -/
theorem progBlur_immediate_synchronous (d : Bool) (s : FState) :
    step d s .progBlur = ({ s with focused := false }, [.setInactive]) := rfl

/-- C10: the `props.disabled` guard applies only to focus events: when
disabled, a monitored focus event is fully ignored (state unchanged —
`subsequentFocus` not marked — and no output), while blur events and
timer expiries behave exactly as when enabled; concretely, a blur from
the focused quiescent state with no subsequent focus still runs the blur
effect and emits `onBlur` with FocusedState becoming false. -/
theorem disabled_guard_focus_only (s : FState) :
    step true s .focusEvt = (s, []) ∧
    step true s .blurEvt = step false s .blurEvt ∧
    step true s .tick = step false s .tick ∧
    run true (quiescent true) [.blurEvt, .tick] =
      (quiescent false, [.preBlurCb, .setInactive, .onBlur]) :=
  ⟨rfl, rfl, rfl, by decide⟩

end FocusedState

namespace Registrar

/-- C7: across any lifetime of primary-focus probe cycles starting from
the mounted state (primary element bound, latch unset), the overlay
container is bound exactly by the first successful locator resolution —
so at most once, with at most two monitored elements ever — and the latch
equals whether some resolution succeeded; a probe on a latched state is a
complete no-op (no re-probe, no re-bind), and a failed resolution leaves
the state unchanged, deferring discovery to a later focus. -/
theorem overlayDiscovery_atMostOnce (cs : List (Option Nat)) (l : List Nat)
    (c : Option Nat) :
    runFocusProbes initialState cs =
      ⟨(firstSome cs).isSome, 0 :: (firstSome cs).toList⟩ ∧
    (runFocusProbes initialState cs).monitoredElements.length ≤ 2 ∧
    probeOverlayContainer ⟨true, l⟩ c = ⟨true, l⟩ ∧
    probeOverlayContainer ⟨false, l⟩ none = ⟨false, l⟩ := by
  have h : runFocusProbes initialState cs =
      ⟨(firstSome cs).isSome, 0 :: (firstSome cs).toList⟩ :=
    runFocusProbes_unlatched cs [0]
  refine ⟨h, ?_, rfl, rfl⟩
  rw [h]
  cases firstSome cs <;> simp

end Registrar

namespace ContainerEl

/-- C8: container resolution per configuration shape: a zero-argument
function is called and its result resolved as a direct value; a string
beginning with a class or id sigil (`.` or `#`) is used as the query
selector unchanged, any other string is prefixed to form the class
selector `"." ++ s`; a direct handle — `null` included — is returned
unchanged.  The query oracle `dom` is total with `none` for "no match",
so an unresolved container is `none`, never an error. -/
theorem getContainerEl_resolution (dom : String → Option Nat)
    (f : Unit → ContainerValue) (s : String) (e : Option Nat) :
    getContainerEl dom (.fn f) = getContainerEl dom (.val (f ())) ∧
    getContainerEl dom (.val (.str s)) =
      dom (if startsWithSigil s then s else "." ++ s) ∧
    getContainerEl dom (.val (.el e)) = e :=
  ⟨rfl, rfl, rfl⟩

end ContainerEl

namespace TempSegment

/-- C9 counterexample: the recorded previous-active name `""` is not
used — the JavaScript guard `if (!name)` treats the empty string like
"nothing recorded", so with segments `[⟨"a", value⟩]` the fallback name
`"a"` is activated instead of the recorded `""`. -/
theorem recordedEmptyName_notUsed_cex :
    setTempSegmentActiveName (some "") [⟨"a", true⟩] = "a" ∧
    ¬ setTempSegmentActiveName (some "") [⟨"a", true⟩] = "" := by
  constructor <;> decide

/-- C9 (amended): the activated name is the recorded previous-active name
whenever one was recorded and it is non-empty; when none was recorded or
the recorded name is the empty string, it is the fallback: the last
segment (scanning from the end) with a truthy value, else the first
segment's name, else the fixed name `"name"` for an empty segment list
(`fallbackNameSpec` states the policy in the spec's words). -/
theorem setTempSegmentActive_policy (prev : Option String)
    (segs : List SegmentValue) :
    setTempSegmentActiveName prev segs =
      (if prev.getD "" = "" then fallbackNameSpec segs else prev.getD "") := by
  by_cases h : prev.getD "" = ""
  · simp only [setTempSegmentActiveName, fallbackNameSpec, h, if_pos]
    cases hf : segs.reverse.find? (fun sv => sv.hasValue) with
    | some sv => rfl
    | none => cases segs <;> rfl
  · simp only [setTempSegmentActiveName, fallbackNameSpec, h, if_neg, if_false]

end TempSegment
